import Mathlib

/-!
Shallow embedding of the multi-agent orchestration core of the repository
(`src/apps/web/src/lib/agents/orchestrator.ts`, together with the agent
configuration table and the shared type declarations).

Strings are modelled as Lean `String`/`List Char`; JavaScript numbers that
hold task order values are modelled as `Int`; optional object fields are
modelled as `Option`.  The external text-generation service is modelled as
an oracle: the plan-generation call outcome is an `Except String
OrchestratorPlan` (exception message or parsed plan data) and the per-task
generation call outcome is a function from the task's position to
`Except String String` (exception message or response text).  `Date`
timestamps are not modelled (no claim mentions them).
-/

namespace Workable

/-- `AgentRole` from `types.ts`. -/
inductive AgentRole
  | orchestrator | ui | backend | database | devops | reviewer
  deriving DecidableEq, Repr

/-- The `action` tag of a `GeneratedFile` (`'create' | 'modify' | 'delete'`). -/
inductive FileAction
  | create | modify | delete
  deriving DecidableEq, Repr

/-- `GeneratedFile` from `types.ts`. -/
structure GeneratedFile where
  path : String
  content : String
  language : String
  action : FileAction
  deriving DecidableEq, Repr

/-- One entry of `OrchestratorPlan.tasks` from `types.ts`:
`{order: number; agent: AgentRole; description: string; files: string[];
dependencies?: number[]}`. -/
structure PlannedTask where
  order : Int
  agent : AgentRole
  description : String
  files : List String
  dependencies : Option (List Int)
  deriving DecidableEq, Repr

/-- `OrchestratorPlan` from `types.ts`. -/
structure OrchestratorPlan where
  summary : String
  tasks : List PlannedTask
  estimatedFiles : Int
  deriving DecidableEq, Repr

/-- `TaskResult` from `types.ts` (the `suggestions` field is never set by the
orchestrator and is omitted). -/
structure TaskResult where
  success : Bool
  files : Option (List GeneratedFile) := none
  message : Option String := none
  error : Option String := none
  deriving DecidableEq, Repr

/-- Status values of `AgentTask` that the orchestrator actually assigns. -/
inductive TaskStatus
  | completed | failed
  deriving DecidableEq, Repr

/-- `AgentTask` from `types.ts`, restricted to the fields the orchestrator
fills in at `processRequest` lines 128-137 (`createdAt`/`completedAt` are
wall-clock timestamps, not modelled). -/
structure AgentTask where
  id : String
  type : String
  description : String
  assignedTo : AgentRole
  status : TaskStatus
  result : TaskResult
  deriving DecidableEq, Repr

/-- Event type tags emitted by the orchestrator (the union of
`AgentEventType` from `types.ts` and the two extra tags `task_skipped` /
`agent_error` that `orchestrator.ts` emits). -/
inductive EventType
  | agent_started | agent_thinking | agent_writing | agent_completed
  | agent_error | task_started | task_completed | task_skipped
  | file_created | file_modified
  deriving DecidableEq, Repr

/-- The `data` payload attached to some events. -/
inductive EventData
  | plan (p : OrchestratorPlan)
  | file (f : GeneratedFile)
  | result (r : TaskResult)
  deriving DecidableEq, Repr

/-- `AgentEvent` from `types.ts` (without the wall-clock `timestamp` that
`emit` adds). -/
structure AgentEvent where
  type : EventType
  agentRole : Option AgentRole := none
  taskId : Option String := none
  message : String
  data : Option EventData := none
  deriving DecidableEq, Repr

/-- Agent display names from `AGENT_CONFIGS` in `agent-configs.ts`. -/
def agentName : AgentRole → String
  | .orchestrator => "Project Architect"
  | .ui => "UI Engineer"
  | .backend => "Backend Engineer"
  | .database => "Database Architect"
  | .devops => "DevOps Engineer"
  | .reviewer => "Code Reviewer"

/-- `filePatterns` of each agent, from `AGENT_CONFIGS` in `agent-configs.ts`. -/
def agentFilePatterns : AgentRole → List String
  | .orchestrator => []
  | .ui => ["src/components/**/*.tsx", "src/app/**/*.tsx", "src/hooks/**/*.ts", "src/**/*.css"]
  | .backend => ["src/app/api/**/*.ts", "src/lib/**/*.ts", "src/services/**/*.ts"]
  | .database => ["src/lib/db/**/*.ts", "src/lib/supabase/**/*.ts", "supabase/**/*.sql"]
  | .devops => [".env*", "next.config.js", "package.json", "tsconfig.json",
      "tailwind.config.*", "Dockerfile", ".github/**/*"]
  | .reviewer => ["**/*"]

/-! ### String helpers (JavaScript semantics) -/

/-- JavaScript's `\s` character class, restricted to the ASCII whitespace
characters (space, tab, newline, carriage return, vertical tab, form feed).
`\s` also matches some Unicode space characters; every string handled by the
claims is ASCII, so this restriction is immaterial. -/
def isJsSpace (c : Char) : Bool :=
  c = ' ' || c = '\t' || c = '\n' || c = '\r' || c = '\x0b' || c = '\x0c'

/-- Remove the maximal whitespace prefix and suffix (what a greedy `\s*` on
each side of a lazy capture group removes). -/
def trimJs (s : List Char) : List Char :=
  ((s.dropWhile isJsSpace).reverse.dropWhile isJsSpace).reverse

/-- `.replace(/^\n+/, '')`: drop the leading run of newline characters. -/
def stripLeadingNewlines (s : List Char) : List Char :=
  s.dropWhile (fun c => c = '\n')

/-- `.replace(/\n+$/, '')`: drop the trailing run of newline characters. -/
def stripTrailingNewlines (s : List Char) : List Char :=
  (s.reverse.dropWhile (fun c => c = '\n')).reverse

/-- If `p` is a prefix of `s`, return the remainder of `s`. -/
def dropPrefix? : List Char → List Char → Option (List Char)
  | [], s => some s
  | _ :: _, [] => none
  | p :: ps, c :: cs => if p = c then dropPrefix? ps cs else none

/-- Split `s` at the first occurrence of `needle`: `some (pre, post)` with
`s = pre ++ needle ++ post` and `pre` shortest, `none` if `needle` does not
occur in `s`. -/
def splitFirst (needle : List Char) : List Char → Option (List Char × List Char)
  | [] => if needle.isEmpty then some ([], []) else none
  | c :: cs =>
    if needle.isPrefixOf (c :: cs) then some ([], (c :: cs).drop needle.length)
    else (splitFirst needle cs).map (fun pr => (c :: pr.1, pr.2))

/-- JavaScript `haystack.includes(needle)`. -/
def jsIncludes (hay needle : String) : Bool :=
  (splitFirst needle.toList hay.toList).isSome

/-- JavaScript `s.slice(0, n)`. -/
def jsSlice (s : String) (n : Nat) : String :=
  String.mk (s.toList.take n)

/-- JavaScript `s.toLowerCase()`, restricted to ASCII case mapping (none of
the strings the orchestrator lowercases rely on non-ASCII case rules). -/
def jsToLower (s : String) : String :=
  String.mk (s.toList.map Char.toLower)

/-- JavaScript `s.split('.')`: split at every `'.'`, keeping empty pieces. -/
def splitOnDotAux : List Char → List Char → List (List Char)
  | acc, [] => [acc.reverse]
  | acc, '.' :: rest => acc.reverse :: splitOnDotAux [] rest
  | acc, c :: rest => splitOnDotAux (c :: acc) rest

/-- JavaScript `s.split('.')`. -/
def splitOnDot (s : String) : List String :=
  (splitOnDotAux [] s.toList).map String.mk

/-! ### `extractFiles` (orchestrator.ts lines 399-427)

The source matches `/<file\s+path="([^"]+)">\s*([\s\S]*?)\s*<\/file>/g`
against the response text with repeated `exec`.  The backtracking semantics
of that pattern at a fixed start position are deterministic:

* `<file` is a literal; `\s+` is greedy but can never successfully
  backtrack (a shorter whitespace run would put a whitespace character where
  the literal `p` of `path="` must match), so it denotes the maximal
  nonempty whitespace run;
* `([^"]+)` is greedy and likewise deterministic: it is the maximal nonempty
  run of non-quote characters, which must be followed by the literal `">`;
* after `">`, the leading greedy `\s*` takes the maximal whitespace run
  (never a shorter one: the lazy group can absorb any character, so the
  maximal choice never blocks a match), the lazy `([\s\S]*?)` grows until
  `\s*<\/file>` matches, and `<\/file>` can only match at the first
  occurrence of `</file>` (an occurrence of `</file>` cannot be preceded by
  later-skipped whitespace containing `<`).  Hence the capture is exactly
  the text up to the first `</file>` with leading and trailing whitespace
  removed, and the match ends right after that `</file>`.
-/

/-- The literal close tag `</file>`. -/
def closeTag : List Char := '<' :: '/' :: 'f' :: 'i' :: 'l' :: 'e' :: '>' :: []

/-- Try to match the file-block regex anchored at the start of `s`.
On success returns the `path` capture, the (whitespace-trimmed) content
capture, and the text after the match. -/
def matchFileTag (s : List Char) : Option (List Char × List Char × List Char) :=
  match dropPrefix? ('<' :: 'f' :: 'i' :: 'l' :: 'e' :: []) s with
  | none => none
  | some s1 =>
    if (s1.takeWhile isJsSpace).isEmpty then none
    else
      match dropPrefix? ('p' :: 'a' :: 't' :: 'h' :: '=' :: '"' :: []) (s1.dropWhile isJsSpace) with
      | none => none
      | some s2 =>
        let path := s2.takeWhile (fun c => c ≠ '"')
        if path.isEmpty then none
        else
          match s2.dropWhile (fun c => c ≠ '"') with
          | '"' :: '>' :: rest =>
            match splitFirst closeTag rest with
            | none => none
            | some pr => some (path, trimJs pr.1, pr.2)
          | _ => none

/-- `getLanguageFromPath` (orchestrator.ts lines 429-462). -/
def languageMap : List (String × String) :=
  [("ts", "typescript"), ("tsx", "typescript"), ("js", "javascript"),
   ("jsx", "javascript"), ("css", "css"), ("scss", "scss"), ("less", "less"),
   ("html", "html"), ("json", "json"), ("md", "markdown"), ("sql", "sql"),
   ("py", "python"), ("go", "go"), ("rs", "rust"), ("java", "java"),
   ("rb", "ruby"), ("php", "php"), ("sh", "shell"), ("bash", "shell"),
   ("yaml", "yaml"), ("yml", "yaml"), ("toml", "toml"), ("xml", "xml"),
   ("svg", "xml"), ("graphql", "graphql"), ("gql", "graphql"),
   ("prisma", "prisma"), ("env", "dotenv")]

/-- `path.split('.').pop()?.toLowerCase()` then `languageMap[ext || ''] ||
'plaintext'`.  Approximation: as with `roleMap`, the JavaScript bracket
lookup would also surface the inherited `Object.prototype` members for the
lower-cased extensions `constructor` and `__proto__` (a truthy non-string
instead of `'plaintext'`); that would require widening the `language` field
beyond `String`, and no claim concerns language inference, so the
string-typed table is kept here. -/
def getLanguageFromPath (path : String) : String :=
  let ext := jsToLower ((splitOnDot path).getLast?.getD "")
  (languageMap.lookup ext).getD "plaintext"

/-- Build the `GeneratedFile` pushed for one regex match (orchestrator.ts
lines 407-423): strip leading/trailing newlines from the captured content
(a no-op after the regex's own `\s*` trimming, kept for fidelity), decide
`create` vs `modify` against `this.context.existingFiles` and
`this.generatedFiles`, and infer the language from the path. -/
def mkExtractedFile (existingFiles generatedFiles : List GeneratedFile)
    (path captured : List Char) : GeneratedFile :=
  let cleanedContent := stripTrailingNewlines (stripLeadingNewlines captured)
  let pathS := String.mk path
  let isExisting := existingFiles.any (fun f => f.path = pathS)
    || generatedFiles.any (fun f => f.path = pathS)
  { path := pathS
    content := String.mk cleanedContent
    language := getLanguageFromPath pathS
    action := if isExisting then .modify else .create }

/-- The `while ((match = fileRegex.exec(content)) !== null)` loop.  `exec`
with the `g` flag finds the leftmost match at or after `lastIndex` and then
advances `lastIndex` past it; equivalently, scan forward one character at a
time, emitting a file and jumping past the match whenever the pattern
matches at the current position.  The loop is given `s.length` as fuel;
every step consumes at least one character, so the fuel never runs out
(`extractLoop_fuel` below). -/
def extractLoop (existingFiles generatedFiles : List GeneratedFile) :
    Nat → List Char → List GeneratedFile
  | _, [] => []
  | 0, _ :: _ => []
  | fuel + 1, c :: cs =>
    match matchFileTag (c :: cs) with
    | some (path, captured, rest) =>
      mkExtractedFile existingFiles generatedFiles path captured
        :: extractLoop existingFiles generatedFiles fuel rest
    | none => extractLoop existingFiles generatedFiles fuel cs

/-- `extractFiles` (orchestrator.ts lines 399-427).  The `agent` parameter
is received but never used by the source either. -/
def extractFiles (content : String) (_agent : AgentRole)
    (existingFiles generatedFiles : List GeneratedFile) : List GeneratedFile :=
  extractLoop existingFiles generatedFiles content.toList.length content.toList

/-! ### Plan generation (`createPlan`, orchestrator.ts lines 167-267)

The network call and the JSON text extraction are external; the embedding
starts from the parsed JSON value (`planData`), modelled as `RawPlan`, and
models the normalization applied to it (lines 214-230).  A `createPlan`
failure (no JSON found, `JSON.parse` failure, or the API call throwing) is
modelled as the `Except.error` case of the plan oracle. -/

/-- One raw task entry of the parsed planner JSON: every field the
normalization reads may be absent. -/
structure RawTask where
  order : Option Int := none
  agent : String
  description : String
  files : Option (List String) := none
  dependencies : Option (List Int) := none
  deriving DecidableEq, Repr

/-- The parsed planner JSON object. -/
structure RawPlan where
  summary : Option String := none
  understanding : Option String := none
  tasks : List RawTask
  deriving DecidableEq, Repr

/-- JavaScript `x || d` for an optional number: `undefined` and `0` are
falsy. -/
def jsOrInt (x : Option Int) (d : Int) : Int :=
  match x with
  | some v => if v = 0 then d else v
  | none => d

/-- JavaScript `x || d` for an optional string: `undefined` and `""` are
falsy. -/
def jsOrStr (x : Option String) (d : String) : String :=
  match x with
  | some s => if s = "" then d else s
  | none => d

/-- The synonym table of `normalizeAgentRole` (orchestrator.ts lines
249-265). -/
def roleMap : List (String × AgentRole) :=
  [("ui", .ui), ("ui_engineer", .ui), ("frontend", .ui),
   ("backend", .backend), ("backend_engineer", .backend), ("api", .backend),
   ("database", .database), ("database_architect", .database), ("db", .database),
   ("devops", .devops), ("devops_engineer", .devops), ("config", .devops),
   ("reviewer", .reviewer), ("code_reviewer", .reviewer),
   ("orchestrator", .orchestrator)]

/-- The result of the JavaScript bracket lookup `roleMap[key]` on the
plain object literal of orchestrator.ts lines 249-265: an own property (one
of the fifteen entries), an *inherited* property found on
`Object.prototype` (a truthy function or object, not an agent role), or
`undefined`.  The own keys are all lower-case and the lookup key is the
lower-cased role, so of the `Object.prototype` member names only the two
all-lower-case ones — `constructor` and `__proto__` — are reachable; every
other inherited name (`toString`, `hasOwnProperty`, `valueOf`, …) contains
an upper-case letter, which the lower-cased key can never spell. -/
inductive RoleLookup
  | own (r : AgentRole)
  | protoMember (key : String)
  | missing
  deriving DecidableEq, Repr

/-- JavaScript bracket lookup on the `roleMap` object literal, prototype
chain included. -/
def jsObjectLookup (key : String) : RoleLookup :=
  match roleMap.lookup key with
  | some r => .own r
  | none =>
    if key = "constructor" ∨ key = "__proto__" then .protoMember key else .missing

/-- The value `roleMap[role.toLowerCase()] || 'ui'` actually evaluates to:
an agent role, or — for the two reachable inherited keys — the truthy
`Object.prototype` member that `||` passes through unchanged.  The
TypeScript signature declares `AgentRole`, but nothing checks it at
runtime. -/
inductive JsAgentValue
  | role (r : AgentRole)
  | protoMember (key : String)
  deriving DecidableEq, Repr

/-- `normalizeAgentRole` (orchestrator.ts lines 248-267):
`roleMap[role.toLowerCase()] || 'ui'`.  An own entry and an inherited
`Object.prototype` member are both truthy and returned as found; only
`undefined` falls through `||` to the `'ui'` default. -/
def normalizeAgentRole (role : String) : JsAgentValue :=
  match jsObjectLookup (jsToLower role) with
  | .own r => .role r
  | .protoMember k => .protoMember k
  | .missing => .role .ui

/-- A task as actually built by `createPlan` from planner JSON: the shape
of `OrchestratorPlan['tasks']` except that the `agent` field holds whatever
`normalizeAgentRole` produced — for the agent names `constructor` /
`__proto__` (any case) that is an inherited `Object.prototype` member, not
an `AgentRole`, despite the declared type. -/
structure CreatedTask where
  order : Int
  agent : JsAgentValue
  description : String
  files : List String
  dependencies : Option (List Int)
  deriving DecidableEq, Repr

/-- The plan value `createPlan` returns, with `CreatedTask` entries. -/
structure CreatedPlan where
  summary : String
  tasks : List CreatedTask
  estimatedFiles : Int
  deriving DecidableEq, Repr

/-- The plan object built from successfully parsed planner JSON
(orchestrator.ts lines 217-230). -/
def normalizePlanData (planData : RawPlan) : CreatedPlan :=
  { summary := jsOrStr planData.summary
      (jsOrStr planData.understanding "Building the requested feature")
    tasks := planData.tasks.enum.map (fun it =>
      { order := jsOrInt it.2.order ((it.1 : Int) + 1)
        agent := normalizeAgentRole it.2.agent
        description := it.2.description
        files := it.2.files.getD []
        dependencies := some (it.2.dependencies.getD []) })
    estimatedFiles := planData.tasks.foldl
      (fun sum t => sum + jsOrInt (t.files.map (fun fs => (fs.length : Int))) 1) 0 }

/-- The task list built by `createFallbackPlan` (orchestrator.ts lines
273-307), factored over the two keyword-test booleans.  The `order` counter
starts at 1 and increments with each pushed task, so a pushed task's order
is the pre-push list length plus one; the `dependencies` of the `backend`
and `ui` tasks are `tasks.length > 0 ? [tasks[tasks.length-1].order] : []`,
evaluated before the push. -/
def fallbackTasks (hasDbKeyword hasApiKeyword : Bool) (userMessage : String) :
    List PlannedTask :=
  let tasks0 : List PlannedTask := []
  let tasks1 :=
    if hasDbKeyword then
      tasks0 ++ [{ order := (tasks0.length : Int) + 1
                   agent := .database
                   description := "Create database schema for: " ++ jsSlice userMessage 100
                   files := ["src/db/schema.sql", "src/types/database.ts"]
                   dependencies := some [] }]
    else tasks0
  let tasks2 :=
    if hasApiKeyword then
      tasks1 ++ [{ order := (tasks1.length : Int) + 1
                   agent := .backend
                   description := "Create API endpoints for: " ++ jsSlice userMessage 100
                   files := ["src/app/api/route.ts"]
                   dependencies := some (match tasks1.getLast? with
                     | some prev => [prev.order]
                     | none => []) }]
    else tasks1
  tasks2 ++ [{ order := (tasks2.length : Int) + 1
               agent := .ui
               description := "Create UI components for: " ++ jsSlice userMessage 100
               files := ["src/App.tsx", "src/components/Main.tsx"]
               dependencies := some (match tasks2.getLast? with
                 | some prev => [prev.order]
                 | none => []) }]

/-- `createFallbackPlan` (orchestrator.ts lines 269-314). -/
def createFallbackPlan (userMessage : String) : OrchestratorPlan :=
  let message := jsToLower userMessage
  let hasDbKeyword := jsIncludes message "database" || jsIncludes message "schema"
    || jsIncludes message "table" || jsIncludes message "sql"
  let hasApiKeyword := jsIncludes message "api" || jsIncludes message "endpoint"
    || jsIncludes message "backend" || jsIncludes message "server"
  let tasks := fallbackTasks hasDbKeyword hasApiKeyword userMessage
  { summary := "Building feature: " ++ jsSlice userMessage 100 ++ "..."
    tasks := tasks
    estimatedFiles := tasks.foldl (fun sum t => sum + (t.files.length : Int)) 0 }

/-! ### Glob pattern filter (`executeTask`, orchestrator.ts lines 327-335)

`executeTask` filters the known files with
`new RegExp(pattern.replace(/\*\*/g, '.*').replace(/\*/g, '[^/]*')).test(f.path)`.
The two `replace` calls are plain global text replacements; note the second
also rewrites the `*` of every `.*` inserted by the first, so `**`
ultimately becomes `.[^/]*`.  The converted strings contain only literal
characters, `.`, and `[^/]*` (for every pattern in `AGENT_CONFIGS`), and
`test` is an unanchored search. -/

/-- JavaScript `s.replace(needle-regex/g, repl)` for a plain (escaped)
needle: replace every non-overlapping occurrence, left to right, without
rescanning the replacement text.  Fueled by `s.length`; each step consumes
at least one character of `s` when the needle is nonempty. -/
def replaceAllF (needle repl : List Char) : Nat → List Char → List Char
  | _, [] => []
  | 0, s => s
  | fuel + 1, c :: cs =>
    if needle ≠ [] ∧ needle.isPrefixOf (c :: cs) then
      repl ++ replaceAllF needle repl fuel ((c :: cs).drop needle.length)
    else c :: replaceAllF needle repl fuel cs

/-- Global text replacement, entry point. -/
def replaceAll (needle repl s : List Char) : List Char :=
  replaceAllF needle repl s.length s

/-- `pattern.replace(/\*\*/g, '.*').replace(/\*/g, '[^/]*')`. -/
def globToRegexChars (pattern : List Char) : List Char :=
  replaceAll ('*' :: []) ('[' :: '^' :: '/' :: ']' :: '*' :: [])
    (replaceAll ('*' :: '*' :: []) ('.' :: '*' :: []) pattern)

/-- Tokens of the regexes produced from the config glob patterns: a literal
character, `.` (any single character), or `[^/]*` (any run of non-slash
characters). -/
inductive RTok
  | lit (c : Char)
  | anyChar
  | nonSlashStar
  deriving DecidableEq, Repr

/-- Read the converted pattern text as a token list (on the converted
config patterns only the three token forms occur; any other character is a
regex literal). -/
def parseRegexChars : List Char → List RTok
  | '[' :: '^' :: '/' :: ']' :: '*' :: rest => .nonSlashStar :: parseRegexChars rest
  | '.' :: rest => .anyChar :: parseRegexChars rest
  | c :: rest => .lit c :: parseRegexChars rest
  | [] => []

/-- Does the token list match some prefix of `s`?  (A regex match may end
before the end of the subject.)  Fueled structural recursion: every step
consumes a token or a subject character, so `toks.length + s.length` fuel
is always enough (the zero-fuel clause is unreachable from `matchHere`). -/
def matchHereF : Nat → List RTok → List Char → Bool
  | _, [], _ => true
  | 0, _ :: _, _ => false
  | _ + 1, .lit _ :: _, [] => false
  | fuel + 1, .lit c :: ts, d :: s => c = d && matchHereF fuel ts s
  | _ + 1, .anyChar :: _, [] => false
  | fuel + 1, .anyChar :: ts, _ :: s => matchHereF fuel ts s
  | fuel + 1, .nonSlashStar :: ts, [] => matchHereF fuel ts []
  | fuel + 1, .nonSlashStar :: ts, d :: s =>
    matchHereF fuel ts (d :: s) || (d ≠ '/' && matchHereF fuel (.nonSlashStar :: ts) s)

/-- Entry point for matching at a fixed position. -/
def matchHere (toks : List RTok) (s : List Char) : Bool :=
  matchHereF (toks.length + s.length) toks s

/-- Unanchored `RegExp.test`: does the token list match starting at some
position of `s`? -/
def regexTestFrom (toks : List RTok) : List Char → Bool
  | [] => matchHere toks []
  | c :: cs => matchHere toks (c :: cs) || regexTestFrom toks cs

/-- The whole `pattern → compiled regex → test(path)` pipeline of
orchestrator.ts lines 330-333. -/
def globPatternTest (pattern path : String) : Bool :=
  regexTestFrom (parseRegexChars (globToRegexChars pattern.toList)) path.toList

/-- The relevant-file filter of `executeTask` (orchestrator.ts lines
328-335): keep the known files whose path some pattern of the task's agent
matches.  The selected files are shown with full content in the prompt;
the source uses the result only to build the prompt text. -/
def relevantFiles (agent : AgentRole) (allKnownFiles : List GeneratedFile) :
    List GeneratedFile :=
  allKnownFiles.filter (fun f =>
    (agentFilePatterns agent).any (fun pattern => globPatternTest pattern f.path))

/-! ### Task execution (`executeTask` and the `processRequest` loop) -/

/-- The error text of the zero-files failure (orchestrator.ts line 381). -/
def noFilesErrorText : String :=
  "No files were generated. The AI response may not have used the correct format."

/-- `executeTask` (orchestrator.ts lines 316-397).  The generation call is
the oracle `gen : Except String String` (`.error msg` models the call
throwing an exception whose message is `msg`; `.ok content` models a
response whose text is `content`).  Returns the `TaskResult` together with
the events emitted inside `executeTask` (`agent_thinking` before the call,
`agent_writing` after a successful call). -/
def executeTask (existingFiles generatedFiles : List GeneratedFile)
    (task : PlannedTask) (gen : Except String String) :
    TaskResult × List AgentEvent :=
  let thinkingEvent : AgentEvent :=
    { type := .agent_thinking, agentRole := some task.agent, message := "Thinking..." }
  match gen with
  | .error msg =>
    ({ success := false, error := some msg }, [thinkingEvent])
  | .ok content =>
    let writingEvent : AgentEvent :=
      { type := .agent_writing, agentRole := some task.agent, message := "Writing code..." }
    let files := extractFiles content task.agent existingFiles generatedFiles
    if files.length = 0 then
      ({ success := false, error := some noFilesErrorText, files := some [] },
       [thinkingEvent, writingEvent])
    else
      ({ success := true, files := some files
         message := some ("Created " ++ toString files.length ++ " file(s)") },
       [thinkingEvent, writingEvent])

/-- The accumulated state of one `processRequest` run: the File Registry
(`this.generatedFiles`), the completed-task list, the
`completedTaskOrders` set (a JS `Set<number>`, modelled as a
duplicate-free-by-construction insertion list), and the emitted events.
`invokedTasks` is ghost instrumentation recording the positions of the
tasks for which `executeTask` (and hence a generation call) actually ran. -/
structure RunState where
  generatedFiles : List GeneratedFile := []
  completedTasks : List AgentTask := []
  completedTaskOrders : List Int := []
  events : List AgentEvent := []
  invokedTasks : List Nat := []
  deriving DecidableEq, Repr

/-- JS `Set.add`: insert if absent. -/
def insertOrder (o : Int) (l : List Int) : List Int :=
  if o ∈ l then l else l ++ [o]

/-- `upsertFile`: the registry update of orchestrator.ts lines 112-117
(`findIndex` on the path, overwrite in place if found, else push). -/
def upsertFile (registry : List GeneratedFile) (file : GeneratedFile) :
    List GeneratedFile :=
  match registry.findIdx? (fun f => f.path = file.path) with
  | some i => registry.set i file
  | none => registry ++ [file]

/-- The `file_created` / `file_modified` event emitted when one file is
merged into the registry (orchestrator.ts lines 119-124). -/
def fileMergeEvent (agent : AgentRole) (file : GeneratedFile) : AgentEvent :=
  { type := if file.action = .create then .file_created else .file_modified
    agentRole := some agent
    message := (if file.action = .create then "Created: " else "Modified: ") ++ file.path
    data := some (.file file) }

/-- The `for (const file of result.files)` merge loop (orchestrator.ts
lines 110-125): upsert each file in order and emit one event per file. -/
def mergeFiles (agent : AgentRole) (registry : List GeneratedFile) :
    List GeneratedFile → List GeneratedFile × List AgentEvent
  | [] => (registry, [])
  | f :: fs =>
    let next := mergeFiles agent (upsertFile registry f) fs
    (next.1, fileMergeEvent agent f :: next.2)

/-- The `task_skipped` event (orchestrator.ts lines 83-88). -/
def taskSkippedEvent (task : PlannedTask) : AgentEvent :=
  { type := .task_skipped
    agentRole := some task.agent
    taskId := some ("task-" ++ toString task.order)
    message := "Skipped: Dependencies not met for \"" ++ task.description ++ "\"" }

/-- One iteration of the `for (const task of plan.tasks)` loop
(orchestrator.ts lines 76-159).  `idx` is the task's position in the list,
used only to query the generation oracle and for the ghost `invokedTasks`
field. -/
def stepTask (existingFiles : List GeneratedFile)
    (gen : Nat → Except String String) (idx : Nat) (task : PlannedTask)
    (st : RunState) : RunState :=
  let dependenciesMet :=
    (task.dependencies.map (fun deps => deps.all (fun d => st.completedTaskOrders.contains d))).getD true
  if dependenciesMet = false then
    { st with events := st.events ++ [taskSkippedEvent task] }
  else
    let taskStartedEvent : AgentEvent :=
      { type := .task_started, agentRole := some task.agent
        taskId := some ("task-" ++ toString task.order), message := task.description }
    let agentStartedEvent : AgentEvent :=
      { type := .agent_started, agentRole := some task.agent
        message := agentName task.agent ++ " is working..." }
    let rs := executeTask existingFiles st.generatedFiles task (gen idx)
    let result := rs.1
    let merged :=
      match result.files with
      | some fs => if result.success then mergeFiles task.agent st.generatedFiles fs
                   else (st.generatedFiles, [])
      | none => (st.generatedFiles, [])
    let agentTask : AgentTask :=
      { id := "task-" ++ toString task.order
        type := "create"
        description := task.description
        assignedTo := task.agent
        status := if result.success then .completed else .failed
        result := result }
    let taskCompletedEvent : AgentEvent :=
      { type := .task_completed, agentRole := some task.agent
        taskId := some ("task-" ++ toString task.order)
        message := if result.success then "Completed: " ++ task.description
                   else "Failed: " ++ (result.error.getD "undefined")
        data := some (.result result) }
    let agentCompletedEvent : AgentEvent :=
      { type := .agent_completed, agentRole := some task.agent
        message := agentName task.agent ++ " finished" }
    { generatedFiles := merged.1
      completedTasks := st.completedTasks ++ [agentTask]
      completedTaskOrders :=
        if result.success then insertOrder task.order st.completedTaskOrders
        else st.completedTaskOrders
      events := st.events ++ [taskStartedEvent, agentStartedEvent] ++ rs.2
        ++ merged.2 ++ [taskCompletedEvent, agentCompletedEvent]
      invokedTasks := st.invokedTasks ++ [idx] }

/-- The full task loop, in listed order. -/
def runTasks (existingFiles : List GeneratedFile)
    (gen : Nat → Except String String) :
    List PlannedTask → Nat → RunState → RunState
  | [], _, st => st
  | t :: ts, idx, st =>
    runTasks existingFiles gen ts (idx + 1) (stepTask existingFiles gen idx t st)

/-- Step 1 of `processRequest` (orchestrator.ts lines 44-70): the initial
`agent_started` event, then either the parsed plan or — when `createPlan`
failed with message `emsg` — an `agent_error` event and the fallback plan.
Returns the plan together with the events emitted so far. -/
def planPhase (userMessage : String)
    (planResult : Except String OrchestratorPlan) :
    OrchestratorPlan × List AgentEvent :=
  let analyzingEvent : AgentEvent :=
    { type := .agent_started, agentRole := some .orchestrator
      message := "Analyzing your request..." }
  match planResult with
  | .ok p => (p, [analyzingEvent])
  | .error emsg =>
    (createFallbackPlan userMessage,
     [analyzingEvent,
      { type := .agent_error, agentRole := some .orchestrator
        message := "Planning failed: " ++ emsg ++ ". Using simplified approach." }])

/-- The `agent_completed` event announcing the plan (orchestrator.ts lines
65-70). -/
def planCreatedEvent (plan : OrchestratorPlan) : AgentEvent :=
  { type := .agent_completed, agentRole := some .orchestrator
    message := "Created plan with " ++ toString plan.tasks.length ++ " task"
      ++ (if plan.tasks.length > 1 then "s" else "")
    data := some (.plan plan) }

/-- `processRequest` (orchestrator.ts lines 38-165): plan phase, then the
task loop.  Returns the plan, the final File Registry (the returned
`files`), and the final run state.  The Markdown summary string
(`generateSummary`) is not modelled; no claim mentions it. -/
def processRequest (existingFiles : List GeneratedFile) (userMessage : String)
    (planResult : Except String OrchestratorPlan)
    (gen : Nat → Except String String) :
    OrchestratorPlan × List GeneratedFile × RunState :=
  let pp := planPhase userMessage planResult
  let plan := pp.1
  let st0 : RunState := { events := pp.2 ++ [planCreatedEvent plan] }
  let stF := runTasks existingFiles gen plan.tasks 0 st0
  (plan, stF.generatedFiles, stF)

/-! ### Spec-side definitions

These two definitions follow the words of the specification (not the
source); they exist to be compared against the behaviour of the source
embedding above. -/

/-- The content cleanup as the spec describes it: remove only the leading
and the trailing blank lines, everything else untouched. -/
def specStripBlankLinesOnly (s : List Char) : List Char :=
  stripTrailingNewlines (stripLeadingNewlines s)

/-- The estimated file count as the spec describes it: the sum over tasks
of the task's target-file count, counting 1 for each task that lists no
target file. -/
def specEstimatedFileCount (tasks : List RawTask) : Int :=
  tasks.foldl
    (fun sum t =>
      sum + (match t.files with
        | some fs => if fs.length = 0 then 1 else (fs.length : Int)
        | none => 1)) 0

/-- The token list compiled from the `ui` agent's first glob pattern
`src/components/**/*.tsx`. -/
def uiComponentsToks : List RTok :=
  parseRegexChars (globToRegexChars "src/components/**/*.tsx".toList)

/-! ## Theorems -/

/-! Small computation lemmas shared by several proofs. -/

theorem jsOrInt_some (v d : Int) : jsOrInt (some v) d = if v = 0 then d else v := rfl

theorem jsOrInt_none (d : Int) : jsOrInt none d = d := rfl

/-! ### C7: plan normalization (corrected) -/

/-- Counterexample to C7 as stated: the agent name `Constructor` is not in
the synonym table, yet `roleMap["constructor"]` finds the inherited
`Object.prototype.constructor` — a truthy non-role value that `|| 'ui'`
returns unchanged — so the program does *not* default this unrecognized
agent to `ui`; the junk value is stored in the built task.  Likewise for
`__proto__`. -/
theorem C7_counterexample :
    normalizeAgentRole "Constructor" = .protoMember "constructor"
    ∧ normalizeAgentRole "__proto__" = .protoMember "__proto__"
    ∧ normalizeAgentRole "Constructor" ≠ .role AgentRole.ui
    ∧ (normalizePlanData { tasks := [{ agent := "Constructor", description := "d" }] }).tasks.map
        (fun t => t.agent) = [.protoMember "constructor"] := by
  exact ⟨by decide, by decide, by decide, by decide⟩

/-- C7 (amended): for every successfully parsed planner output, each raw
task entry is normalized with the defaulting rules of `createPlan` (order
from the 1-based position when missing, agent through the synonym table
case-insensitively, empty dependency and target-file sequences), and the
plan's estimated file count is the sum over tasks of the target-file count,
counting 1 for each task that lists none.  An unrecognized agent defaults
to `ui` *except* when its lower-cased name is `constructor` or
`__proto__`: there the JavaScript object lookup finds the truthy inherited
`Object.prototype` member and returns it instead of the default. -/
theorem C7_plan_normalization (planData : RawPlan) :
    (normalizePlanData planData).tasks.length = planData.tasks.length
    ∧ (∀ i rt, planData.tasks.get? i = some rt →
        ∃ nt, (normalizePlanData planData).tasks.get? i = some nt
          ∧ (rt.order = none → nt.order = (i : Int) + 1)
          ∧ nt.agent = normalizeAgentRole rt.agent
          ∧ nt.description = rt.description
          ∧ (rt.dependencies = none → nt.dependencies = some [])
          ∧ (rt.files = none → nt.files = []))
    ∧ normalizeAgentRole "frontend" = .role .ui
    ∧ normalizeAgentRole "FRONTEND" = .role .ui
    ∧ normalizeAgentRole "db" = .role .database
    ∧ normalizeAgentRole "Backend_Engineer" = .role .backend
    ∧ (∀ role, roleMap.lookup (jsToLower role) = none →
        jsToLower role ≠ "constructor" → jsToLower role ≠ "__proto__" →
        normalizeAgentRole role = .role .ui)
    ∧ (∀ role, roleMap.lookup (jsToLower role) = none →
        (jsToLower role = "constructor" ∨ jsToLower role = "__proto__") →
        normalizeAgentRole role = .protoMember (jsToLower role))
    ∧ (normalizePlanData planData).estimatedFiles = specEstimatedFileCount planData.tasks := by
  refine ⟨?_, ?_, by decide, by decide, by decide, by decide, ?_, ?_, ?_⟩
  · simp [normalizePlanData, List.enum_length]
  · intro i rt hrt
    refine ⟨{ order := jsOrInt rt.order ((i : Int) + 1)
              agent := normalizeAgentRole rt.agent
              description := rt.description
              files := rt.files.getD []
              dependencies := some (rt.dependencies.getD []) },
      ?_, ?_, rfl, rfl, ?_, ?_⟩
    · rw [List.get?_eq_getElem?] at hrt ⊢
      simp only [normalizePlanData, List.getElem?_map, List.getElem?_enum, hrt, Option.map_some']
    · intro h; simp [h, jsOrInt]
    · intro h; simp [h]
    · intro h; simp [h]
  · intro role h hc hp
    simp [normalizeAgentRole, jsObjectLookup, h, hc, hp]
  · intro role h hk
    rcases hk with hk | hk <;> simp only [normalizeAgentRole, hk] <;> decide
  · simp only [normalizePlanData, specEstimatedFileCount]
    refine List.foldl_ext _ _ _ ?_
    intro a t _
    cases hf : t.files with
    | none => simp [jsOrInt]
    | some fs =>
      cases fs with
      | nil => simp [jsOrInt]
      | cons x xs =>
        simp only [Option.map_some', jsOrInt_some, List.length_cons]
        rw [if_neg (by omega)]
        simp

/-- Witness for C7 (amended) at a concrete raw plan. -/
theorem C7_plan_normalization_witness :
    ∃ nt, (normalizePlanData
        { tasks := [{ agent := "Frontend", description := "d" }] }).tasks.get? 0 = some nt
      ∧ nt.order = 1 ∧ nt.agent = JsAgentValue.role AgentRole.ui := by
  obtain ⟨-, h, -⟩ := C7_plan_normalization
    { tasks := [{ agent := "Frontend", description := "d" }] }
  obtain ⟨nt, hg, hord, hag, -, -, -⟩ := h 0 { agent := "Frontend", description := "d" } rfl
  refine ⟨nt, hg, ?_, ?_⟩
  · rw [hord rfl]; decide
  · rw [hag]; decide

/-! ### C2: fallback plan on planning failure -/

/-- Shape of the fallback task list, for any values of the two keyword
tests: non-empty, `ui` last, and the last task depends on the immediately
preceding task when one exists. -/
theorem fallbackTasks_shape (b1 b2 : Bool) (m : String) :
    fallbackTasks b1 b2 m ≠ []
    ∧ (fallbackTasks b1 b2 m).getLast?.map (fun t => t.agent) = some AgentRole.ui
    ∧ (∀ n, (fallbackTasks b1 b2 m).length = n + 2 →
        ∃ prev last, (fallbackTasks b1 b2 m).get? n = some prev
          ∧ (fallbackTasks b1 b2 m).get? (n + 1) = some last
          ∧ last.dependencies = some [prev.order])
    ∧ ((fallbackTasks b1 b2 m).length = 1 →
        (fallbackTasks b1 b2 m).getLast?.map (fun t => t.dependencies) = some (some [])) := by
  cases b1 <;> cases b2
  · refine ⟨by simp [fallbackTasks], by simp [fallbackTasks], ?_, by simp [fallbackTasks]⟩
    intro n hn
    simp [fallbackTasks] at hn
  · refine ⟨by simp [fallbackTasks], by simp [fallbackTasks], ?_, by simp [fallbackTasks]⟩
    intro n hn
    have hn0 : n = 0 := by simp [fallbackTasks] at hn; omega
    subst hn0
    exact ⟨_, _, rfl, rfl, rfl⟩
  · refine ⟨by simp [fallbackTasks], by simp [fallbackTasks], ?_, by simp [fallbackTasks]⟩
    intro n hn
    have hn0 : n = 0 := by simp [fallbackTasks] at hn; omega
    subst hn0
    exact ⟨_, _, rfl, rfl, rfl⟩
  · refine ⟨by simp [fallbackTasks], by simp [fallbackTasks], ?_, by simp [fallbackTasks]⟩
    intro n hn
    have hn1 : n = 1 := by simp [fallbackTasks] at hn; omega
    subst hn1
    exact ⟨_, _, rfl, rfl, rfl⟩

/-- C2: when `createPlan` fails, `processRequest` recovers with the
keyword-heuristic fallback plan instead of surfacing the failure; for every
user message that plan is non-empty, its last task is a `ui` task, and the
last task's dependencies reference the immediately preceding task when one
exists (and are empty when the `ui` task is alone). -/
theorem C2_fallback_plan_on_failure (existingFiles : List GeneratedFile)
    (userMessage emsg : String) (gen : Nat → Except String String) :
    (processRequest existingFiles userMessage (.error emsg) gen).1
        = createFallbackPlan userMessage
    ∧ (createFallbackPlan userMessage).tasks ≠ []
    ∧ (createFallbackPlan userMessage).tasks.getLast?.map (fun t => t.agent)
        = some AgentRole.ui
    ∧ (∀ n, (createFallbackPlan userMessage).tasks.length = n + 2 →
        ∃ prev last, (createFallbackPlan userMessage).tasks.get? n = some prev
          ∧ (createFallbackPlan userMessage).tasks.get? (n + 1) = some last
          ∧ last.dependencies = some [prev.order])
    ∧ ((createFallbackPlan userMessage).tasks.length = 1 →
        (createFallbackPlan userMessage).tasks.getLast?.map (fun t => t.dependencies)
          = some (some [])) := by
  have hs := fallbackTasks_shape
    (jsIncludes (jsToLower userMessage) "database" || jsIncludes (jsToLower userMessage) "schema"
      || jsIncludes (jsToLower userMessage) "table" || jsIncludes (jsToLower userMessage) "sql")
    (jsIncludes (jsToLower userMessage) "api" || jsIncludes (jsToLower userMessage) "endpoint"
      || jsIncludes (jsToLower userMessage) "backend" || jsIncludes (jsToLower userMessage) "server")
    userMessage
  have hplan : (createFallbackPlan userMessage).tasks
      = fallbackTasks
        (jsIncludes (jsToLower userMessage) "database" || jsIncludes (jsToLower userMessage) "schema"
          || jsIncludes (jsToLower userMessage) "table" || jsIncludes (jsToLower userMessage) "sql")
        (jsIncludes (jsToLower userMessage) "api" || jsIncludes (jsToLower userMessage) "endpoint"
          || jsIncludes (jsToLower userMessage) "backend" || jsIncludes (jsToLower userMessage) "server")
        userMessage := rfl
  refine ⟨rfl, ?_, ?_, ?_, ?_⟩
  · rw [hplan]; exact hs.1
  · rw [hplan]; exact hs.2.1
  · rw [hplan]; exact hs.2.2.1
  · rw [hplan]; exact hs.2.2.2

/-- Witness for C2 at a concrete user message. -/
theorem C2_fallback_plan_on_failure_witness :
    (processRequest [] "build an api" (.error "boom") (fun _ => .ok "")).1
        = createFallbackPlan "build an api"
    ∧ ∃ prev last, (createFallbackPlan "build an api").tasks.get? 0 = some prev
        ∧ (createFallbackPlan "build an api").tasks.get? 1 = some last
        ∧ last.dependencies = some [prev.order] := by
  obtain ⟨h1, -, -, h4, -⟩ :=
    C2_fallback_plan_on_failure [] "build an api" "boom" (fun _ => .ok "")
  exact ⟨h1, h4 0 (by decide)⟩

/-! ### C5: create vs modify actions -/

/-- Every file produced by the extraction loop carries the action computed
against the pre-task known files (`context.existingFiles` ∪
`this.generatedFiles`). -/
theorem extractLoop_action (existing generated : List GeneratedFile) :
    ∀ fuel s f, f ∈ extractLoop existing generated fuel s →
      f.action = if (existing ++ generated).any (fun g => g.path = f.path)
        then FileAction.modify else FileAction.create := by
  intro fuel
  induction fuel with
  | zero =>
    intro s f hf
    cases s <;> simp [extractLoop] at hf
  | succ fuel ih =>
    intro s f hf
    cases s with
    | nil => simp [extractLoop] at hf
    | cons c cs =>
      cases hm : matchFileTag (c :: cs) with
      | none =>
        simp only [extractLoop, hm] at hf
        exact ih cs f hf
      | some pr =>
        simp only [extractLoop, hm, List.mem_cons] at hf
        rcases hf with hf | hf
        · subst hf
          simp [mkExtractedFile, List.any_append]
        · exact ih pr.2.2 f hf

/-- C5: an extracted file's action is `modify` exactly when its path occurs
among the known files (the supplied existing files together with the files
generated by earlier tasks of the run), else `create`; in particular
`src/App.tsx` is created when nothing exists and modified when a file with
that path already exists. -/
theorem C5_create_vs_modify (content : String) (agent : AgentRole)
    (existingFiles generatedFiles : List GeneratedFile) (f : GeneratedFile)
    (hf : f ∈ extractFiles content agent existingFiles generatedFiles) :
    (f.action = if (existingFiles ++ generatedFiles).any (fun g => g.path = f.path)
        then FileAction.modify else FileAction.create)
    ∧ (extractFiles "<file path=\"src/App.tsx\">X</file>" .ui [] []).map
        (fun g => (g.path, g.action)) = [("src/App.tsx", FileAction.create)]
    ∧ (extractFiles "<file path=\"src/App.tsx\">X</file>" .ui
        [{ path := "src/App.tsx", content := "old", language := "typescript",
           action := .create }] []).map (fun g => (g.path, g.action))
      = [("src/App.tsx", FileAction.modify)] := by
  exact ⟨extractLoop_action existingFiles generatedFiles _ _ f hf, by decide, by decide⟩

/-- Witness for C5 at a concrete extraction. -/
theorem C5_create_vs_modify_witness :
    (⟨"src/App.tsx", "X", "typescript", .create⟩ : GeneratedFile).action
      = if (([] ++ [] : List GeneratedFile)).any
          (fun g => g.path = (⟨"src/App.tsx", "X", "typescript", .create⟩ : GeneratedFile).path)
        then FileAction.modify else FileAction.create := by
  exact (C5_create_vs_modify "<file path=\"src/App.tsx\">X</file>" .ui [] []
    ⟨"src/App.tsx", "X", "typescript", .create⟩ (by decide)).1

/-! ### C8: distinct failure modes (corrected) -/

/-- Counterexample to C8 as stated: when the generation call throws with a
message that happens to equal the zero-files error text, the two failure
modes produce the *same* error text, so the claimed inequality of error
texts does not hold universally. -/
theorem C8_counterexample :
    (executeTask [] [] ⟨1, .ui, "t", [], some []⟩ (.error noFilesErrorText)).1.error
      = (executeTask [] [] ⟨1, .ui, "t", [], some []⟩ (.ok "no blocks here")).1.error
    ∧ (executeTask [] [] ⟨1, .ui, "t", [], some []⟩ (.error noFilesErrorText)).1.success = false
    ∧ (executeTask [] [] ⟨1, .ui, "t", [], some []⟩ (.ok "no blocks here")).1.success = false := by
  exact ⟨by decide, by decide, by decide⟩

/-- C8 (amended): a task whose generation succeeds but yields zero file
blocks gets `success := false` with the fixed "no files generated" error
text, a thrown generation call gets `success := false` with the thrown
message, and the two error texts differ whenever the thrown message is not
itself the fixed text. -/
theorem C8_no_files_error (existingFiles generatedFiles : List GeneratedFile)
    (task : PlannedTask) (content msg : String)
    (hzero : extractFiles content task.agent existingFiles generatedFiles = []) :
    (executeTask existingFiles generatedFiles task (.ok content)).1
      = { success := false, error := some noFilesErrorText, files := some [] }
    ∧ (executeTask existingFiles generatedFiles task (.error msg)).1
      = { success := false, error := some msg }
    ∧ (msg ≠ noFilesErrorText →
        (executeTask existingFiles generatedFiles task (.ok content)).1.error
          ≠ (executeTask existingFiles generatedFiles task (.error msg)).1.error) := by
  refine ⟨?_, rfl, ?_⟩
  · simp [executeTask, hzero]
  · intro hne
    simp [executeTask, hzero]
    exact fun h => hne h.symm

/-- Witness for C8 (amended) at a concrete response with no file blocks. -/
theorem C8_no_files_error_witness :
    (executeTask [] [] ⟨1, .ui, "t", [], some []⟩ (.ok "plain text")).1
      = { success := false, error := some noFilesErrorText, files := some [] } := by
  exact (C8_no_files_error [] [] ⟨1, .ui, "t", [], some []⟩ "plain text" "boom" (by decide)).1

/-! ### C9: one file event per merged file -/

/-- The merge loop emits exactly one event per merged file, in order. -/
theorem mergeFiles_events (agent : AgentRole) :
    ∀ (registry : List GeneratedFile) (fs : List GeneratedFile),
      (mergeFiles agent registry fs).2 = fs.map (fileMergeEvent agent) := by
  intro registry fs
  induction fs generalizing registry with
  | nil => simp [mergeFiles]
  | cons f fs ih => simp [mergeFiles, ih]

/-- C9: for every merge of a task's result files into the File Registry,
exactly one `file_created` / `file_modified` event is emitted per file —
`file_created` exactly for `create` actions, `file_modified` for the others
— and at the run level a successful task's step emits exactly the events
`task_started, agent_started, agent_thinking, agent_writing`, one file
event per extracted file, and `task_completed, agent_completed`. -/
theorem C9_file_events (agent : AgentRole) (registry fs : List GeneratedFile)
    (existingFiles : List GeneratedFile) (gen : Nat → Except String String)
    (i : Nat) (task : PlannedTask) (st : RunState) (content : String)
    (hgen : gen i = .ok content)
    (hmet : (task.dependencies.map
      (fun deps => deps.all (fun d => st.completedTaskOrders.contains d))).getD true = true)
    (hext : extractFiles content task.agent existingFiles st.generatedFiles ≠ []) :
    (mergeFiles agent registry fs).2 = fs.map (fileMergeEvent agent)
    ∧ (∀ f ∈ fs, (fileMergeEvent agent f).type
        = if f.action = .create then EventType.file_created else EventType.file_modified)
    ∧ (stepTask existingFiles gen i task st).events
      = st.events
        ++ [{ type := .task_started, agentRole := some task.agent
              taskId := some ("task-" ++ toString task.order), message := task.description },
            { type := .agent_started, agentRole := some task.agent
              message := agentName task.agent ++ " is working..." },
            { type := .agent_thinking, agentRole := some task.agent, message := "Thinking..." },
            { type := .agent_writing, agentRole := some task.agent, message := "Writing code..." }]
        ++ (extractFiles content task.agent existingFiles st.generatedFiles).map
            (fileMergeEvent task.agent)
        ++ [{ type := .task_completed, agentRole := some task.agent
              taskId := some ("task-" ++ toString task.order)
              message := "Completed: " ++ task.description
              data := some (.result (executeTask existingFiles st.generatedFiles task
                (gen i)).1) },
            { type := .agent_completed, agentRole := some task.agent
              message := agentName task.agent ++ " finished" }] := by
  refine ⟨mergeFiles_events agent registry fs, fun f _ => rfl, ?_⟩
  have hlen : (extractFiles content task.agent existingFiles st.generatedFiles).length ≠ 0 := by
    simpa using hext
  have hmet2 : (Option.map (fun deps => deps.all fun d => decide (d ∈ st.completedTaskOrders))
      task.dependencies).getD true = true := by simpa using hmet
  simp [stepTask, hmet2, executeTask, hgen, hlen, mergeFiles_events, List.append_assoc]

/-- Witness for C9 at a concrete step. -/
theorem C9_file_events_witness :
    (mergeFiles AgentRole.ui [] []).2
      = ([] : List GeneratedFile).map (fileMergeEvent AgentRole.ui) :=
  (C9_file_events .ui [] [] [] (fun _ => .ok "<file path=\"a.ts\">x</file>") 0
    ⟨1, .ui, "t", [], some []⟩ {} "<file path=\"a.ts\">x</file>" rfl (by decide) (by decide)).1

/-! ### C6: registry upsert (corrected) -/

/-- `upsertFile` on a head entry with a different path leaves the head in
place and recurses structurally. -/
theorem upsertFile_cons_ne (g : GeneratedFile) (reg : List GeneratedFile)
    (f : GeneratedFile) (h : g.path ≠ f.path) :
    upsertFile (g :: reg) f = g :: upsertFile reg f := by
  simp only [upsertFile, List.findIdx?_cons]
  rw [if_neg (by simpa using h)]
  cases hidx : reg.findIdx? (fun x => x.path = f.path) with
  | none => simp [hidx]
  | some i => simp [hidx, List.set]

/-- `upsertFile` on a head entry with the same path overwrites the head. -/
theorem upsertFile_cons_eq (g : GeneratedFile) (reg : List GeneratedFile)
    (f : GeneratedFile) (h : g.path = f.path) :
    upsertFile (g :: reg) f = f :: reg := by
  simp only [upsertFile, List.findIdx?_cons]
  rw [if_pos (by simpa using h)]
  simp [List.set]

/-- After an upsert, the entries at the file's path are exactly the new
file, provided the registry held at most one entry at that path. -/
theorem upsertFile_filter (reg : List GeneratedFile) (f : GeneratedFile)
    (h : (reg.filter (fun g => g.path = f.path)).length ≤ 1) :
    (upsertFile reg f).filter (fun g => g.path = f.path) = [f] := by
  induction reg with
  | nil => simp [upsertFile]
  | cons g reg ih =>
    by_cases hg : g.path = f.path
    · rw [upsertFile_cons_eq g reg f hg]
      have : reg.filter (fun g => g.path = f.path) = [] := by
        rw [List.filter_cons_of_pos (by simpa using hg)] at h
        simp only [List.length_cons] at h
        exact List.eq_nil_of_length_eq_zero (by omega)
      simp [List.filter_cons, this]
    · rw [upsertFile_cons_ne g reg f hg]
      rw [List.filter_cons_of_neg (by simpa using hg)] at h ⊢
      exact ih h

/-- Members of an upserted registry come from the registry or are the new
file. -/
theorem mem_upsertFile (reg : List GeneratedFile) (f b : GeneratedFile) :
    b ∈ upsertFile reg f → b ∈ reg ∨ b = f := by
  induction reg with
  | nil => simp [upsertFile]
  | cons g reg ih =>
    by_cases hp : g.path = f.path
    · rw [upsertFile_cons_eq g reg f hp]
      intro hb
      rcases List.mem_cons.mp hb with h | h
      · right; exact h
      · left; exact List.mem_cons_of_mem _ h
    · rw [upsertFile_cons_ne g reg f hp]
      intro hb
      rcases List.mem_cons.mp hb with h | h
      · left; exact h ▸ List.mem_cons_self _ _
      · rcases ih h with h' | h'
        · left; exact List.mem_cons_of_mem _ h'
        · right; exact h'

/-- Upserting preserves path-uniqueness of the registry. -/
theorem upsertFile_pairwise (reg : List GeneratedFile) (f : GeneratedFile)
    (h : reg.Pairwise (fun a b => a.path ≠ b.path)) :
    (upsertFile reg f).Pairwise (fun a b => a.path ≠ b.path) := by
  induction reg with
  | nil => simp [upsertFile]
  | cons g reg ih =>
    rcases List.pairwise_cons.mp h with ⟨hg, hrest⟩
    by_cases hp : g.path = f.path
    · rw [upsertFile_cons_eq g reg f hp]
      refine List.pairwise_cons.mpr ⟨?_, hrest⟩
      intro b hb
      rw [← hp]
      exact (hg b hb)
    · rw [upsertFile_cons_ne g reg f hp]
      refine List.pairwise_cons.mpr ⟨?_, ih hrest⟩
      intro b hb
      rcases mem_upsertFile reg f b hb with h' | h'
      · exact hg b h'
      · rw [h']; exact hp

/-- A path-unique registry holds at most one entry at any path. -/
theorem filter_path_length_le_one (reg : List GeneratedFile) (p : String)
    (h : reg.Pairwise (fun a b => a.path ≠ b.path)) :
    (reg.filter (fun g => g.path = p)).length ≤ 1 := by
  induction reg with
  | nil => simp
  | cons g reg ih =>
    rcases List.pairwise_cons.mp h with ⟨hg, hrest⟩
    by_cases hp : g.path = p
    · rw [List.filter_cons_of_pos (by simpa using hp)]
      have : reg.filter (fun g => g.path = p) = [] := by
        refine List.filter_eq_nil_iff.mpr ?_
        intro b hb
        simp only [decide_eq_true_eq]
        intro hbp
        exact hg b hb (hp.trans hbp.symm)
      simp [this]
    · rw [List.filter_cons_of_neg (by simpa using hp)]
      exact ih hrest

/-- Counterexample to C6 as stated: in a run whose single task writes the
path `a.ts` twice (with contents `x` then `y`) in one response against an
empty project, the registry does end up with exactly one entry holding the
latest content, but the second write's action is `create`, not `modify` —
both writes are classified against the pre-task known-file set. -/
theorem C6_counterexample :
    (processRequest [] "m"
        (.ok ⟨"s", [⟨1, .ui, "t", [], some []⟩], 1⟩)
        (fun _ => .ok "<file path=\"a.ts\">x</file><file path=\"a.ts\">y</file>")).2.1
      = [{ path := "a.ts", content := "y", language := "typescript", action := .create }]
    ∧ (extractFiles "<file path=\"a.ts\">x</file><file path=\"a.ts\">y</file>" .ui [] []).map
        (fun f => f.action) = [FileAction.create, FileAction.create]
    ∧ FileAction.create ≠ FileAction.modify := by
  exact ⟨by decide, by decide, by decide⟩

/-- C6 (amended): writing the same path twice leaves exactly one registry
entry for that path, holding the latest content, and path-uniqueness is
preserved; the second write's action is `modify` when the second write
happens in a later task (its path then being among the already-generated
known files), while two writes inside one task's response are both
classified against the pre-task known-file set. -/
theorem C6_upsert_idempotent (reg : List GeneratedFile) (f1 f2 : GeneratedFile)
    (hpath : f1.path = f2.path)
    (huniq : reg.Pairwise (fun a b => a.path ≠ b.path)) :
    ((upsertFile (upsertFile reg f1) f2).filter (fun g => g.path = f2.path) = [f2])
    ∧ (upsertFile (upsertFile reg f1) f2).Pairwise (fun a b => a.path ≠ b.path)
    ∧ (∀ content agent existing generated f,
        f ∈ extractFiles content agent existing generated →
        generated.any (fun g => g.path = f.path) = true →
        f.action = FileAction.modify) := by
  refine ⟨?_, ?_, ?_⟩
  · exact upsertFile_filter _ f2
      (filter_path_length_le_one _ _ (upsertFile_pairwise reg f1 huniq))
  · exact upsertFile_pairwise _ f2 (upsertFile_pairwise reg f1 huniq)
  · intro content agent existing generated f hf hany
    have := extractLoop_action existing generated _ _ f hf
    rw [this, if_pos]
    rw [List.any_append, hany]
    simp

/-- Witness for C6 (amended) at a concrete double write. -/
theorem C6_upsert_idempotent_witness :
    (upsertFile (upsertFile [] ⟨"a.ts", "x", "typescript", .create⟩)
        ⟨"a.ts", "y", "typescript", .create⟩).filter
      (fun g => g.path = (⟨"a.ts", "y", "typescript", FileAction.create⟩ : GeneratedFile).path)
      = [⟨"a.ts", "y", "typescript", .create⟩] :=
  (C6_upsert_idempotent [] ⟨"a.ts", "x", "typescript", .create⟩
    ⟨"a.ts", "y", "typescript", .create⟩ rfl (by simp)).1

/-! ### C3: failed generation call -/

/-- C3: when a task's dependencies are met and its generation call throws,
the step records the task as failed (success `false`, the thrown message as
error), does not add the task's order to the completed set, leaves the
registry untouched, emits `task_completed` with a failure message, and the
run continues with the remaining tasks; moreover any task whose
dependencies contain this order is skipped whenever that order is not in
the completed set when it is reached. -/
theorem C3_failed_generation (existingFiles : List GeneratedFile)
    (gen : Nat → Except String String) (i : Nat) (task : PlannedTask)
    (st : RunState) (msg : String)
    (hmet : (task.dependencies.map
      (fun deps => deps.all (fun d => st.completedTaskOrders.contains d))).getD true = true)
    (hgen : gen i = .error msg) :
    (stepTask existingFiles gen i task st).completedTasks
      = st.completedTasks ++ [⟨"task-" ++ toString task.order, "create", task.description,
          task.agent, .failed, { success := false, error := some msg }⟩]
    ∧ (stepTask existingFiles gen i task st).completedTaskOrders = st.completedTaskOrders
    ∧ (stepTask existingFiles gen i task st).generatedFiles = st.generatedFiles
    ∧ (stepTask existingFiles gen i task st).events
      = st.events
        ++ [{ type := .task_started, agentRole := some task.agent
              taskId := some ("task-" ++ toString task.order), message := task.description },
            { type := .agent_started, agentRole := some task.agent
              message := agentName task.agent ++ " is working..." },
            { type := .agent_thinking, agentRole := some task.agent, message := "Thinking..." },
            { type := .task_completed, agentRole := some task.agent
              taskId := some ("task-" ++ toString task.order)
              message := "Failed: " ++ msg
              data := some (.result { success := false, error := some msg }) },
            { type := .agent_completed, agentRole := some task.agent
              message := agentName task.agent ++ " finished" }]
    ∧ (∀ rest, runTasks existingFiles gen (task :: rest) i st
        = runTasks existingFiles gen rest (i + 1) (stepTask existingFiles gen i task st))
    ∧ (∀ j t' deps' s2, t'.dependencies = some deps' → task.order ∈ deps' →
        task.order ∉ s2.completedTaskOrders →
        stepTask existingFiles gen j t' s2
          = { s2 with events := s2.events ++ [taskSkippedEvent t'] }) := by
  have hmet2 : (Option.map (fun deps => deps.all fun d => decide (d ∈ st.completedTaskOrders))
      task.dependencies).getD true = true := by simpa using hmet
  refine ⟨?_, ?_, ?_, ?_, fun rest => rfl, ?_⟩
  · simp [stepTask, hmet2, executeTask, hgen]
  · simp [stepTask, hmet2, executeTask, hgen]
  · simp [stepTask, hmet2, executeTask, hgen]
  · simp [stepTask, hmet2, executeTask, hgen]
  · intro j t' deps' s2 hdeps hmem hnotin
    have hall : deps'.all (fun d => decide (d ∈ s2.completedTaskOrders)) = false := by
      cases h0 : deps'.all (fun d => decide (d ∈ s2.completedTaskOrders)) with
      | false => rfl
      | true =>
        have := List.all_eq_true.mp h0 task.order hmem
        exact absurd (by simpa using this) hnotin
    simp [stepTask, hdeps, hall]

/-- Witness for C3 at a concrete failing generation call. -/
theorem C3_failed_generation_witness :
    (stepTask [] (fun _ => Except.error "boom") 0 ⟨1, .ui, "t", [], some []⟩
        {}).completedTaskOrders = ({} : RunState).completedTaskOrders :=
  (C3_failed_generation [] (fun _ => Except.error "boom") 0 ⟨1, .ui, "t", [], some []⟩
    {} "boom" (by decide) rfl).2.1

/-! ### C1: dependency gating -/

/-- The task loop splits along list concatenation. -/
theorem runTasks_append (existingFiles : List GeneratedFile)
    (gen : Nat → Except String String) (xs ys : List PlannedTask) (i : Nat)
    (st : RunState) :
    runTasks existingFiles gen (xs ++ ys) i st
      = runTasks existingFiles gen ys (i + xs.length)
          (runTasks existingFiles gen xs i st) := by
  induction xs generalizing i st with
  | nil => simp [runTasks]
  | cons t ts ih =>
    simp only [List.cons_append, runTasks, List.append_eq]
    rw [ih]
    congr 1
    simp only [List.length_cons]
    omega

/-- C1: a task `t` at position `i` of the plan is handled against the state
`pre` reached after the first `i` tasks: the whole run factors through
`stepTask` at `t`; if some dependency order is missing from the
completed-successfully set at that moment, the step only appends a
`task_skipped` event (so `t` is never invoked — no generation call — and
never recorded, in particular never recorded as failed); if all dependency
orders are present, the task is invoked. -/
theorem C1_dependency_gating (existingFiles : List GeneratedFile)
    (gen : Nat → Except String String) (userMessage : String)
    (planResult : Except String OrchestratorPlan) (i : Nat) (t : PlannedTask)
    (deps : List Int) (pre : RunState)
    (ht : (planPhase userMessage planResult).1.tasks.get? i = some t)
    (hdeps : t.dependencies = some deps)
    (hne : deps ≠ [])
    (hpre : pre = runTasks existingFiles gen
      ((planPhase userMessage planResult).1.tasks.take i) 0
      { events := (planPhase userMessage planResult).2
          ++ [planCreatedEvent (planPhase userMessage planResult).1] }) :
    (processRequest existingFiles userMessage planResult gen).2.2
        = runTasks existingFiles gen
            ((planPhase userMessage planResult).1.tasks.drop (i + 1)) (i + 1)
            (stepTask existingFiles gen i t pre)
    ∧ (deps.all (fun d => pre.completedTaskOrders.contains d) = false →
        stepTask existingFiles gen i t pre
          = { pre with events := pre.events ++ [taskSkippedEvent t] })
    ∧ (deps.all (fun d => pre.completedTaskOrders.contains d) = true →
        (stepTask existingFiles gen i t pre).invokedTasks = pre.invokedTasks ++ [i]) := by
  have hi : i < (planPhase userMessage planResult).1.tasks.length := by
    rcases List.get?_eq_some.mp ht with ⟨h, -⟩
    exact h
  refine ⟨?_, ?_, ?_⟩
  · show runTasks existingFiles gen (planPhase userMessage planResult).1.tasks 0
        { events := (planPhase userMessage planResult).2
            ++ [planCreatedEvent (planPhase userMessage planResult).1] } = _
    conv =>
      lhs
      rw [← List.take_append_drop i (planPhase userMessage planResult).1.tasks]
    rw [runTasks_append, List.length_take, Nat.min_eq_left (Nat.le_of_lt hi), ← hpre]
    rw [List.drop_eq_getElem_cons hi, runTasks]
    have hget : (planPhase userMessage planResult).1.tasks[i] = t := by
      rw [List.get?_eq_getElem?] at ht
      rcases List.getElem?_eq_some_iff.mp ht with ⟨hh, hv⟩
      exact hv
    rw [hget]
    simp
  · intro hall
    have hall2 : deps.all (fun d => decide (d ∈ pre.completedTaskOrders)) = false := by
      simpa using hall
    simp [stepTask, hdeps, hall2]
  · intro hall
    have hall2 : deps.all (fun d => decide (d ∈ pre.completedTaskOrders)) = true := by
      simpa using hall
    simp [stepTask, hdeps, hall2]

/-- Witness for C1: a single-task plan whose task depends on the
never-completed order 5 is skipped. -/
theorem C1_dependency_gating_witness :
    stepTask [] (fun _ => Except.error "x") 0 ⟨1, .ui, "b", [], some [5]⟩
        { events := [⟨.agent_started, some .orchestrator, none, "Analyzing your request...", none⟩,
            planCreatedEvent ⟨"s", [⟨1, .ui, "b", [], some [5]⟩], 1⟩] }
      = { ({ events := [⟨.agent_started, some .orchestrator, none, "Analyzing your request...", none⟩,
            planCreatedEvent ⟨"s", [⟨1, .ui, "b", [], some [5]⟩], 1⟩] } : RunState) with
          events := [⟨.agent_started, some .orchestrator, none, "Analyzing your request...", none⟩,
              planCreatedEvent ⟨"s", [⟨1, .ui, "b", [], some [5]⟩], 1⟩]
            ++ [taskSkippedEvent ⟨1, .ui, "b", [], some [5]⟩] } :=
  (C1_dependency_gating [] (fun _ => Except.error "x") "m"
    (.ok ⟨"s", [⟨1, .ui, "b", [], some [5]⟩], 1⟩) 0 ⟨1, .ui, "b", [], some [5]⟩ [5]
    { events := [⟨.agent_started, some .orchestrator, none, "Analyzing your request...", none⟩,
        planCreatedEvent ⟨"s", [⟨1, .ui, "b", [], some [5]⟩], 1⟩] }
    rfl rfl (by decide) (by decide)).2.1 (by decide)

/-! ### C4: file-block extraction (corrected) -/

/-- `takeWhile`/`dropWhile` across an append that stops exactly at `d`. -/
theorem takeWhile_dropWhile_append (p : Char → Bool) (l : List Char) (d : Char)
    (r : List Char) (hl : ∀ c ∈ l, p c = true) (hd : p d = false) :
    (l ++ d :: r).takeWhile p = l ∧ (l ++ d :: r).dropWhile p = d :: r := by
  induction l with
  | nil => simp [List.takeWhile, List.dropWhile, hd]
  | cons a l ih =>
    have ha : p a = true := hl a (List.mem_cons_self a l)
    have hrest := ih (fun c hc => hl c (List.mem_cons_of_mem a hc))
    simp [List.takeWhile, List.dropWhile, ha, hrest.1, hrest.2]

/-- When `body` contains no `<`, the first occurrence of the close tag in
`body ++ closeTag` is exactly the appended one. -/
theorem splitFirst_body_closeTag (body : List Char) (h : '<' ∉ body) :
    splitFirst closeTag (body ++ closeTag) = some (body, []) := by
  induction body with
  | nil => simp [splitFirst, closeTag, List.isPrefixOf]
  | cons c cs ih =>
    have hc : c ≠ '<' := fun hc => h (hc ▸ List.mem_cons_self c cs)
    have hpre : closeTag.isPrefixOf (c :: (cs ++ closeTag)) = false := by
      simp [closeTag, List.isPrefixOf]
      intro hlt
      exact absurd hlt.symm hc
    have ihcs := ih (fun hm => h (List.mem_cons_of_mem c hm))
    simp [splitFirst, hpre, ihcs]

/-- Dropping with a weaker predicate after dropping with a stronger one is
the identity: used to show the newline strips are no-ops after the regex's
whitespace trimming. -/
theorem dropWhile_newline_of_dropWhile_space (l : List Char)
    (h : l.dropWhile isJsSpace = l) : l.dropWhile (fun c => c = '\n') = l := by
  rw [List.dropWhile_eq_self_iff] at h ⊢
  intro hl hn
  apply h hl
  have hc : l.get ⟨0, hl⟩ = '\n' := by simpa using hn
  rw [hc]
  decide

/-- `dropWhile` is idempotent. -/
theorem dropWhile_idem (p : Char → Bool) (l : List Char) :
    (l.dropWhile p).dropWhile p = l.dropWhile p := by
  rw [List.dropWhile_eq_self_iff]
  intro hl
  exact List.dropWhile_get_zero_not (p := p) l hl

/-- A prefix of a `dropWhile p`-invariant list is itself invariant. -/
theorem dropWhile_eq_self_of_prefix (p : Char → Bool) (l m : List Char)
    (hpre : l <+: m) (hm : m.dropWhile p = m) : l.dropWhile p = l := by
  cases l with
  | nil => rfl
  | cons c cs =>
    rcases hpre with ⟨r, hr⟩
    subst hr
    rw [List.dropWhile_eq_self_iff] at hm ⊢
    intro hl hp
    exact hm (by simp) hp

/-- The two newline strips are no-ops on an already whitespace-trimmed
capture. -/
theorem strip_newlines_trimJs (body : List Char) :
    stripTrailingNewlines (stripLeadingNewlines (trimJs body)) = trimJs body := by
  have hY : (body.dropWhile isJsSpace).dropWhile isJsSpace = body.dropWhile isJsSpace :=
    dropWhile_idem _ _
  have hZ : ((body.dropWhile isJsSpace).reverse.dropWhile isJsSpace).dropWhile isJsSpace
      = (body.dropWhile isJsSpace).reverse.dropWhile isJsSpace := dropWhile_idem _ _
  have hpre : ((body.dropWhile isJsSpace).reverse.dropWhile isJsSpace).reverse
      <+: body.dropWhile isJsSpace := by
    have hsuf : (body.dropWhile isJsSpace).reverse.dropWhile isJsSpace
        <:+ (body.dropWhile isJsSpace).reverse := List.dropWhile_suffix _
    have h2 := List.reverse_prefix.mpr hsuf
    simpa using h2
  have hrevZ : (((body.dropWhile isJsSpace).reverse.dropWhile isJsSpace).reverse).dropWhile
      isJsSpace = ((body.dropWhile isJsSpace).reverse.dropWhile isJsSpace).reverse :=
    dropWhile_eq_self_of_prefix _ _ _ hpre hY
  unfold trimJs stripLeadingNewlines stripTrailingNewlines
  rw [dropWhile_newline_of_dropWhile_space _ hrevZ]
  rw [List.reverse_reverse]
  rw [dropWhile_newline_of_dropWhile_space _ hZ]

/-- The file-block regex matches a well-formed block at its start and
captures the path and the whitespace-trimmed body. -/
theorem matchFileTag_wellformed (path body : List Char) (hpne : path ≠ [])
    (hpq : '"' ∉ path) (hbl : '<' ∉ body) :
    matchFileTag ('<' :: 'f' :: 'i' :: 'l' :: 'e' :: ' ' :: 'p' :: 'a' :: 't' :: 'h' :: '='
        :: '"' :: (path ++ '"' :: '>' :: (body ++ closeTag)))
      = some (path, trimJs body, []) := by
  have hsplit := splitFirst_body_closeTag body hbl
  have htd := takeWhile_dropWhile_append (fun c => c ≠ '"') path '"'
    ('>' :: (body ++ closeTag))
    (fun c hc => by
      simp only [decide_eq_true_eq]
      exact fun h => hpq (h ▸ hc))
    (by decide)
  have hpe : path.isEmpty = false := by
    cases path with
    | nil => exact absurd rfl hpne
    | cons a l => rfl
  have e1 : dropPrefix? ('<' :: 'f' :: 'i' :: 'l' :: 'e' :: [])
      ('<' :: 'f' :: 'i' :: 'l' :: 'e' :: ' ' :: 'p' :: 'a' :: 't' :: 'h' :: '=' :: '"'
        :: (path ++ '"' :: '>' :: (body ++ closeTag)))
      = some (' ' :: 'p' :: 'a' :: 't' :: 'h' :: '=' :: '"'
        :: (path ++ '"' :: '>' :: (body ++ closeTag))) := rfl
  have e2 : (List.takeWhile isJsSpace (' ' :: 'p' :: 'a' :: 't' :: 'h' :: '=' :: '"'
      :: (path ++ '"' :: '>' :: (body ++ closeTag)))).isEmpty = false := rfl
  have e3 : List.dropWhile isJsSpace (' ' :: 'p' :: 'a' :: 't' :: 'h' :: '=' :: '"'
      :: (path ++ '"' :: '>' :: (body ++ closeTag)))
      = 'p' :: 'a' :: 't' :: 'h' :: '=' :: '"' :: (path ++ '"' :: '>' :: (body ++ closeTag)) := rfl
  have e4 : dropPrefix? ('p' :: 'a' :: 't' :: 'h' :: '=' :: '"' :: [])
      ('p' :: 'a' :: 't' :: 'h' :: '=' :: '"' :: (path ++ '"' :: '>' :: (body ++ closeTag)))
      = some (path ++ '"' :: '>' :: (body ++ closeTag)) := rfl
  simp only [matchFileTag, e1, e2, e3, e4, htd.1, htd.2, hpe, hsplit, Bool.false_eq_true,
    if_false]

/-- Counterexample to C4 as stated: for the block `<file path="a.ts"> x </file>`
the body is ` x ` and contains no blank lines at all, so removing only
leading and trailing blank lines (the spec-side `specStripBlankLinesOnly`)
leaves ` x `; the code instead extracts `x` — the regex's `\s*` delimiters
strip all leading and trailing whitespace, not only blank lines. -/
theorem C4_counterexample :
    (extractFiles "<file path=\"a.ts\"> x </file>" .ui [] []).map (fun f => f.content)
      = ["x"]
    ∧ String.mk (specStripBlankLinesOnly (' ' :: 'x' :: ' ' :: [])) = " x "
    ∧ ("x" : String) ≠ " x " := by
  exact ⟨by decide, by decide, by decide⟩

/-- C4 (amended): extraction returns exactly the well-formed
`<file path="...">…</file>` blocks; a block with a missing close tag or an
empty path is skipped without aborting extraction; each extracted file's
content equals the block body with leading and trailing *whitespace*
removed (not only blank lines), all internal formatting preserved
exactly. -/
theorem C4_extraction (path body : List Char) (agent : AgentRole)
    (existingFiles generatedFiles : List GeneratedFile)
    (hpne : path ≠ []) (hpq : '"' ∉ path) (hbl : '<' ∉ body) :
    extractFiles
        (String.mk ("<file path=\"".toList ++ (path ++ ("\">".toList ++ (body ++ closeTag)))))
        agent existingFiles generatedFiles
      = [mkExtractedFile existingFiles generatedFiles path (trimJs body)]
    ∧ (mkExtractedFile existingFiles generatedFiles path (trimJs body)).content
        = String.mk (trimJs body)
    ∧ extractFiles "<file path=\"a.ts\">x" agent existingFiles generatedFiles = []
    ∧ (extractFiles "<file path=\"\">x</file><file path=\"b.ts\">y</file>" .ui [] []).map
        (fun f => (f.path, f.content)) = [("b.ts", "y")] := by
  refine ⟨?_, ?_, rfl, by decide⟩
  · have hm := matchFileTag_wellformed path body hpne hpq hbl
    show extractLoop existingFiles generatedFiles
      (('<' :: 'f' :: 'i' :: 'l' :: 'e' :: ' ' :: 'p' :: 'a' :: 't' :: 'h' :: '=' :: '"'
        :: (path ++ '"' :: '>' :: (body ++ closeTag))).length)
      ('<' :: 'f' :: 'i' :: 'l' :: 'e' :: ' ' :: 'p' :: 'a' :: 't' :: 'h' :: '=' :: '"'
        :: (path ++ '"' :: '>' :: (body ++ closeTag))) = _
    simp only [List.length_cons]
    rw [extractLoop, hm]
    simp [extractLoop]
  · simp [mkExtractedFile, strip_newlines_trimJs]

/-- Witness for C4 (amended) at a concrete block with surrounding
whitespace in the body. -/
theorem C4_extraction_witness :
    extractFiles
        (String.mk
          ("<file path=\"".toList
            ++ (('a' :: '.' :: 't' :: 's' :: [])
              ++ ("\">".toList ++ ((' ' :: 'x' :: ' ' :: []) ++ closeTag)))))
        .ui [] []
      = [mkExtractedFile [] [] ('a' :: '.' :: 't' :: 's' :: [])
          (trimJs (' ' :: 'x' :: ' ' :: []))] :=
  (C4_extraction ('a' :: '.' :: 't' :: 's' :: []) (' ' :: 'x' :: ' ' :: []) .ui [] []
    (by decide) (by decide) (by decide)).1

/-! ### C10: glob-to-regex conversion drops direct children -/

/-- A run of literal tokens consumes exactly its characters. -/
theorem matchHereF_lit_prefix :
    ∀ (lits : List Char) (fuel : Nat) (ts : List RTok) (s : List Char),
      matchHereF fuel (lits.map RTok.lit ++ ts) s = true →
      ∃ fuel' s', s = lits ++ s' ∧ matchHereF fuel' ts s' = true := by
  intro lits
  induction lits with
  | nil =>
    intro fuel ts s h
    exact ⟨fuel, s, by simp, h⟩
  | cons c lits ih =>
    intro fuel ts s h
    simp only [List.map_cons, List.cons_append] at h
    cases fuel with
    | zero => simp [matchHereF] at h
    | succ fuel =>
      cases s with
      | nil => simp [matchHereF] at h
      | cons d s0 =>
        simp only [matchHereF, Bool.and_eq_true, decide_eq_true_eq] at h
        rcases h with ⟨hcd, hrest⟩
        rcases ih fuel ts s0 hrest with ⟨f', s', heq, hm⟩
        exact ⟨f', s', by rw [heq, hcd]; rfl, hm⟩

/-- A `[^/]*` token followed by a literal `/` can only match when the
subject contains a slash. -/
theorem matchHereF_nonSlashStar_slash :
    ∀ (fuel : Nat) (ts : List RTok) (s : List Char),
      matchHereF fuel (.nonSlashStar :: .lit '/' :: ts) s = true → '/' ∈ s := by
  intro fuel
  induction fuel with
  | zero =>
    intro ts s h
    cases s <;> simp [matchHereF] at h
  | succ fuel ih =>
    intro ts s h
    cases s with
    | nil =>
      simp only [matchHereF] at h
      cases fuel <;> simp [matchHereF] at h
    | cons d s0 =>
      simp only [matchHereF, Bool.or_eq_true, Bool.and_eq_true, decide_eq_true_eq] at h
      rcases h with h | ⟨-, h⟩
      · cases fuel with
        | zero => simp [matchHereF] at h
        | succ fuel =>
          simp only [matchHereF, Bool.and_eq_true, decide_eq_true_eq] at h
          exact h.1 ▸ List.mem_cons_self _ _
      · exact List.mem_cons_of_mem _ (ih ts s0 h)

/-- The compiled `ui` pattern splits into the literal run
`src/components/` followed by `. [^/]* / [^/]* . t s x`. -/
theorem uiComponentsToks_split :
    uiComponentsToks = "src/components/".toList.map RTok.lit
      ++ [.anyChar, .nonSlashStar, .lit '/', .nonSlashStar, .anyChar,
          .lit 't', .lit 's', .lit 'x'] := by decide

/-- The compiled `ui` pattern cannot match inside a slash-free subject. -/
theorem matchHereF_ui_no_slash (fuel : Nat) (s : List Char) (hns : '/' ∉ s) :
    matchHereF fuel uiComponentsToks s = false := by
  cases hm : matchHereF fuel uiComponentsToks s with
  | false => rfl
  | true =>
    rw [uiComponentsToks_split] at hm
    rcases matchHereF_lit_prefix _ _ _ _ hm with ⟨f', s', heq, -⟩
    exact absurd (heq ▸ List.mem_append_left s' (by decide)) hns

/-- The compiled `ui` pattern cannot match at a position whose first
character is not `s`. -/
theorem matchHereF_ui_head_ne (fuel : Nat) (d : Char) (rest : List Char)
    (hd : d ≠ 's') : matchHereF fuel uiComponentsToks (d :: rest) = false := by
  cases hm : matchHereF fuel uiComponentsToks (d :: rest) with
  | false => rfl
  | true =>
    rw [uiComponentsToks_split] at hm
    rcases matchHereF_lit_prefix _ _ _ _ hm with ⟨f', s', heq, -⟩
    simp at heq
    exact absurd heq.1 hd

/-- Nor at a position reading `s` followed by anything other than `r`. -/
theorem matchHereF_ui_head2_ne (fuel : Nat) (d : Char) (rest : List Char)
    (hd : d ≠ 'r') : matchHereF fuel uiComponentsToks ('s' :: d :: rest) = false := by
  cases hm : matchHereF fuel uiComponentsToks ('s' :: d :: rest) with
  | false => rfl
  | true =>
    rw [uiComponentsToks_split] at hm
    rcases matchHereF_lit_prefix _ _ _ _ hm with ⟨f', s', heq, -⟩
    simp at heq
    exact absurd heq.1 hd

/-- The compiled `ui` pattern cannot match at the very start of
`src/components/<name>` for a slash-free `name`: after the literal run the
regex still demands another `/`. -/
theorem matchHereF_ui_full_prefix (fuel : Nat) (name : List Char)
    (hns : '/' ∉ name) :
    matchHereF fuel uiComponentsToks ("src/components/".toList ++ name) = false := by
  cases hm : matchHereF fuel uiComponentsToks ("src/components/".toList ++ name) with
  | false => rfl
  | true =>
    rw [uiComponentsToks_split] at hm
    rcases matchHereF_lit_prefix _ _ _ _ hm with ⟨f', s', heq, hrest⟩
    have hs' : s' = name := List.append_cancel_left heq.symm
    rw [hs'] at hrest
    cases f' with
    | zero => simp [matchHereF] at hrest
    | succ f' =>
      cases name with
      | nil => simp [matchHereF] at hrest
      | cons c n' =>
        simp only [matchHereF] at hrest
        have : '/' ∈ n' := matchHereF_nonSlashStar_slash f' _ n' hrest
        exact absurd (List.mem_cons_of_mem _ this) hns

/-- Scanning a slash-free subject never finds a match of the `ui`
pattern. -/
theorem regexTestFrom_ui_no_slash (s : List Char) (hns : '/' ∉ s) :
    regexTestFrom uiComponentsToks s = false := by
  induction s with
  | nil =>
    simp only [regexTestFrom, matchHere]
    exact matchHereF_ui_no_slash _ _ hns
  | cons c cs ih =>
    simp only [regexTestFrom, matchHere]
    rw [matchHereF_ui_no_slash _ _ hns,
      ih (fun hm => hns (List.mem_cons_of_mem _ hm))]
    rfl

/-- Scanning `src/components/<name>` (slash-free `name`) never finds a
match of the compiled `ui` pattern at any start position. -/
theorem regexTestFrom_ui_direct_child (name : List Char) (hns : '/' ∉ name) :
    regexTestFrom uiComponentsToks
      ('s' :: 'r' :: 'c' :: '/' :: 'c' :: 'o' :: 'm' :: 'p' :: 'o' :: 'n' :: 'e' :: 'n'
        :: 't' :: 's' :: '/' :: name) = false := by
  have h0 : ∀ fuel : Nat, matchHereF fuel uiComponentsToks
      ('s' :: 'r' :: 'c' :: '/' :: 'c' :: 'o' :: 'm' :: 'p' :: 'o' :: 'n' :: 'e' :: 'n'
        :: 't' :: 's' :: '/' :: name) = false :=
    fun fuel => matchHereF_ui_full_prefix fuel name hns
  have htail : regexTestFrom uiComponentsToks name = false :=
    regexTestFrom_ui_no_slash name hns
  have h1 : ∀ fuel : Nat, matchHereF fuel uiComponentsToks
      ('r' :: 'c' :: '/' :: 'c' :: 'o' :: 'm' :: 'p' :: 'o' :: 'n' :: 'e' :: 'n' :: 't' :: 's' :: '/' :: name) = false :=
    fun fuel => matchHereF_ui_head_ne fuel 'r' _ (by decide)
  have h2 : ∀ fuel : Nat, matchHereF fuel uiComponentsToks
      ('c' :: '/' :: 'c' :: 'o' :: 'm' :: 'p' :: 'o' :: 'n' :: 'e' :: 'n' :: 't' :: 's' :: '/' :: name) = false :=
    fun fuel => matchHereF_ui_head_ne fuel 'c' _ (by decide)
  have h3 : ∀ fuel : Nat, matchHereF fuel uiComponentsToks
      ('/' :: 'c' :: 'o' :: 'm' :: 'p' :: 'o' :: 'n' :: 'e' :: 'n' :: 't' :: 's' :: '/' :: name) = false :=
    fun fuel => matchHereF_ui_head_ne fuel '/' _ (by decide)
  have h4 : ∀ fuel : Nat, matchHereF fuel uiComponentsToks
      ('c' :: 'o' :: 'm' :: 'p' :: 'o' :: 'n' :: 'e' :: 'n' :: 't' :: 's' :: '/' :: name) = false :=
    fun fuel => matchHereF_ui_head_ne fuel 'c' _ (by decide)
  have h5 : ∀ fuel : Nat, matchHereF fuel uiComponentsToks
      ('o' :: 'm' :: 'p' :: 'o' :: 'n' :: 'e' :: 'n' :: 't' :: 's' :: '/' :: name) = false :=
    fun fuel => matchHereF_ui_head_ne fuel 'o' _ (by decide)
  have h6 : ∀ fuel : Nat, matchHereF fuel uiComponentsToks
      ('m' :: 'p' :: 'o' :: 'n' :: 'e' :: 'n' :: 't' :: 's' :: '/' :: name) = false :=
    fun fuel => matchHereF_ui_head_ne fuel 'm' _ (by decide)
  have h7 : ∀ fuel : Nat, matchHereF fuel uiComponentsToks
      ('p' :: 'o' :: 'n' :: 'e' :: 'n' :: 't' :: 's' :: '/' :: name) = false :=
    fun fuel => matchHereF_ui_head_ne fuel 'p' _ (by decide)
  have h8 : ∀ fuel : Nat, matchHereF fuel uiComponentsToks
      ('o' :: 'n' :: 'e' :: 'n' :: 't' :: 's' :: '/' :: name) = false :=
    fun fuel => matchHereF_ui_head_ne fuel 'o' _ (by decide)
  have h9 : ∀ fuel : Nat, matchHereF fuel uiComponentsToks
      ('n' :: 'e' :: 'n' :: 't' :: 's' :: '/' :: name) = false :=
    fun fuel => matchHereF_ui_head_ne fuel 'n' _ (by decide)
  have h10 : ∀ fuel : Nat, matchHereF fuel uiComponentsToks
      ('e' :: 'n' :: 't' :: 's' :: '/' :: name) = false :=
    fun fuel => matchHereF_ui_head_ne fuel 'e' _ (by decide)
  have h11 : ∀ fuel : Nat, matchHereF fuel uiComponentsToks
      ('n' :: 't' :: 's' :: '/' :: name) = false :=
    fun fuel => matchHereF_ui_head_ne fuel 'n' _ (by decide)
  have h12 : ∀ fuel : Nat, matchHereF fuel uiComponentsToks
      ('t' :: 's' :: '/' :: name) = false :=
    fun fuel => matchHereF_ui_head_ne fuel 't' _ (by decide)
  have h13 : ∀ fuel : Nat, matchHereF fuel uiComponentsToks
      ('s' :: '/' :: name) = false :=
    fun fuel => matchHereF_ui_head2_ne fuel '/' _ (by decide)
  have h14 : ∀ fuel : Nat, matchHereF fuel uiComponentsToks
      ('/' :: name) = false :=
    fun fuel => matchHereF_ui_head_ne fuel '/' _ (by decide)
  simp only [regexTestFrom, matchHere, h0, h1, h2, h3, h4, h5, h6, h7, h8, h9, h10, h11, h12, h13, h14, htail, Bool.false_or,
    Bool.or_false]

/-- C10: the glob conversion is the chained pair of global text
replacements (`**` → `.*`, then every `*` — including the one just
inserted — → `[^/]*`), producing an unanchored regex with unescaped dots;
consequently a direct child of an owned directory such as
`src/components/Main.tsx` is never matched by
`src/components/**/*.tsx` (the converted expression demands another `/`
after the directory prefix), so the file is not selected as relevant
full-content context for the `ui` agent — while a file one level deeper is
matched. -/
theorem C10_glob_direct_child (name : List Char) (hns : '/' ∉ name) :
    String.mk (globToRegexChars "src/components/**/*.tsx".toList)
        = "src/components/.[^/]*/[^/]*.tsx"
    ∧ regexTestFrom uiComponentsToks ("src/components/".toList ++ name) = false
    ∧ globPatternTest "src/components/**/*.tsx" "src/components/Main.tsx" = false
    ∧ globPatternTest "src/components/**/*.tsx" "src/components/sub/Main.tsx" = true
    ∧ relevantFiles .ui
        [⟨"src/components/Main.tsx", "const x = 1", "typescript", .create⟩] = [] := by
  refine ⟨by decide, ?_, by decide, by decide, by decide⟩
  show regexTestFrom uiComponentsToks
    ('s' :: 'r' :: 'c' :: '/' :: 'c' :: 'o' :: 'm' :: 'p' :: 'o' :: 'n' :: 'e' :: 'n'
      :: 't' :: 's' :: '/' :: name) = false
  exact regexTestFrom_ui_direct_child name hns

/-- Witness for C10 at the claim's own example path. -/
theorem C10_glob_direct_child_witness :
    regexTestFrom uiComponentsToks
      ("src/components/".toList ++ "Main.tsx".toList) = false :=
  (C10_glob_direct_child "Main.tsx".toList (by decide)).2.1

end Workable
